import Mathlib

/-!
Verification development for the `console-log-capture` module
(`src/console-log-capture.js`).  The JavaScript class `ConsoleCapture` is
embedded shallowly: its mutable instance state becomes the structure
`CaptureState`, each Playwright event handler becomes a pure state-transition
function, and wall-clock reads (`Date.now()`) become explicit `Nat`
epoch-millisecond parameters threaded into each call.
-/

set_option autoImplicit false

/-- JavaScript values that flow into `_formatLocation` as `lineNum`/`colNum`:
the console adapter passes numbers, the pageerror adapter passes the digit
strings captured by its regular expression, and the default argument is
`null`.  Truthiness and `> 0` coercion follow JavaScript semantics (the
string coercion is stated for all-digit strings, the only strings the
pageerror adapter can produce). -/
inductive JVal where
  | jnum : Nat → JVal
  | jstr : String → JVal
  | jnull : JVal
deriving DecidableEq, Repr

/-- Numeric value of a list of decimal digit characters. -/
def parseDigits (l : List Char) : Nat :=
  l.foldl (fun a c => a * 10 + (c.toNat - 48)) 0

/-- JavaScript truthiness of a `JVal`: `0`, `""` and `null` are falsy. -/
def JVal.truthy : JVal → Bool
  | .jnum n => n ≠ 0
  | .jstr s => s ≠ ""
  | .jnull => false

/-- JavaScript comparison `v > 0` for the values reaching `_formatLocation`
(digit strings coerce to their numeric value). -/
def JVal.gtZero : JVal → Bool
  | .jnum n => 0 < n
  | .jstr s => 0 < parseDigits s.toList
  | .jnull => false

/-- Template-literal rendering `${v}` of a `JVal`. -/
def JVal.render : JVal → String
  | .jnum n => toString n
  | .jstr s => s
  | .jnull => "null"

/-- The closed level enumeration stored in each captured message. -/
inductive LogLevel where
  | ERROR
  | WARN
  | INFO
deriving DecidableEq, Repr

/-- Rendering of a stored level inside a report line. -/
def LogLevel.render : LogLevel → String
  | .ERROR => "ERROR"
  | .WARN => "WARN"
  | .INFO => "INFO"

/-- One entry of `this.messages` as built by `_logMessage`: the frozen
bracketed timestamp string, the level, the location string, the text, and the
raw epoch milliseconds (`time: Date.now()`). -/
structure Msg where
  timestamp : String
  level : LogLevel
  location : String
  text : String
  time : Nat
deriving DecidableEq, Repr

/-- The mutable state of a `ConsoleCapture` instance: `baseUrl` (empty string
when unset), `startTime` (epoch ms at construction), the `messages` array,
the `errors` and `warnings` tallies, and the `reportedErrors` set (modelled
as the list of keys in insertion order; keys are only ever added when
absent, so list membership is exactly set membership). -/
structure CaptureState where
  baseUrl : String
  startTime : Nat
  messages : List Msg
  errors : Nat
  warnings : Nat
  reportedErrors : List String
deriving DecidableEq, Repr

/-- Constructor state: `new ConsoleCapture(page, options)` with
`options.baseUrl || ''` and `this.startTime = Date.now()`.  The `autoLog`,
`verbose`, `saveToFile` and `filePrefix` options only affect side-channel
printing and file output, never the captured state, so they are not part of
the state model. -/
def initState (baseUrl : String) (startTime : Nat) : CaptureState :=
  { baseUrl := baseUrl
    startTime := startTime
    messages := []
    errors := 0
    warnings := 0
    reportedErrors := [] }

/-- JavaScript `str.replace(pat, '')` for a string pattern: remove the first
occurrence of `pat`, or return the string unchanged when `pat` does not
occur (list-of-characters version). -/
def replaceFirstList (s pat : List Char) : List Char :=
  match s with
  | [] => []
  | c :: cs => if pat.isPrefixOf (c :: cs) then (c :: cs).drop pat.length
               else c :: replaceFirstList cs pat

/-- JavaScript `str.replace(pat, '')` for a string pattern. -/
def replaceFirst (s pat : String) : String :=
  (replaceFirstList s.toList pat.toList).asString

/-- JavaScript `str.replace(/^\//, '')`: drop one leading slash if present. -/
def stripLeadSlash (s : String) : String :=
  match s.toList with
  | '/' :: rest => rest.asString
  | _ => s

/-- JavaScript `str.toUpperCase()`.  Modelled as per-character ASCII
uppercasing, which coincides with `toUpperCase` on the console type tags
Playwright delivers (all ASCII). -/
def jsToUpper (s : String) : String :=
  (s.toList.map Char.toUpper).asString

/-- Two-digit zero-padded rendering of a number below 100. -/
def pad2 (n : Nat) : String :=
  if n < 10 then "0" ++ toString n else toString n

/-- JavaScript `s.padStart(5, '0')`. -/
def padStart5 (s : String) : String :=
  (List.replicate (5 - s.length) '0').asString ++ s

/-- `(ms / 1000).toFixed(2)` on an elapsed-millisecond count: seconds with
exactly two decimal places.  Fractional centiseconds are rounded to the
nearest (half up); for inputs that are whole multiples of 10 ms — in
particular every value appearing in this development — this coincides
exactly with the JavaScript double rounding. -/
def toFixed2 (ms : Nat) : String :=
  let cs := (ms + 5) / 10
  toString (cs / 100) ++ "." ++ pad2 (cs % 100)

/-- `(ms / 1000).toFixed(1)`: seconds with one decimal place (same rounding
remark as `toFixed2`, exact on whole multiples of 100 ms). -/
def toFixed1 (ms : Nat) : String :=
  let ds := (ms + 50) / 100
  toString (ds / 10) ++ "." ++ toString (ds % 10)

/-- The unbracketed elapsed display of `_getTimestamp`:
`((now - startTime) / 1000).toFixed(2).padStart(5, '0')`. -/
def elapsedString (ms : Nat) : String :=
  padStart5 (toFixed2 ms)

/-- `_getTimestamp()` at wall-clock instant `now`. -/
def getTimestamp (s : CaptureState) (now : Nat) : String :=
  "[" ++ elapsedString (now - s.startTime) ++ "]"

/-- `_formatLocation(url, lineNum, colNum)`.  Note that the source applies
`url.replace(this.baseUrl, '')` (first occurrence anywhere, not anchored)
followed by `.replace(/^\//, '')` (unconditional single-leading-slash strip)
whenever `this.baseUrl` is truthy, and appends the column only when `colNum`
is truthy. -/
def formatLocation (baseUrl url : String) (lineNum colNum : JVal) : String :=
  if url = "" then ""
  else
    let file := if baseUrl ≠ "" then stripLeadSlash (replaceFirst url baseUrl) else url
    if lineNum.gtZero then
      if colNum.truthy then file ++ ":" ++ lineNum.render ++ ":" ++ colNum.render
      else file ++ ":" ++ lineNum.render
    else file

/-- `_logMessage(level, location, text)` at wall-clock instant `now`: pushes
one message carrying the timestamp frozen at creation time.  The `autoLog`
console print is output-only and leaves the state untouched. -/
def logMessage (s : CaptureState) (now : Nat) (level : LogLevel)
    (location text : String) : CaptureState :=
  { s with messages := s.messages ++
      [{ timestamp := getTimestamp s now
         level := level
         location := location
         text := text
         time := now }] }

/-- A Playwright `console` event: the type tag (e.g. `"log"`, `"error"`,
`"warning"`), the origin location fields, and the message text. -/
structure ConsoleEvent where
  type : String
  url : String
  lineNumber : Nat
  columnNumber : JVal
  text : String
deriving DecidableEq, Repr

/-- A Playwright `pageerror` event: the error message and optional stack. -/
structure PageErrorEvent where
  message : String
  stack : Option String
deriving DecidableEq, Repr

/-- A Playwright `response` event: URL, numeric status, and status text. -/
structure ResponseEvent where
  url : String
  status : Nat
  statusText : String
deriving DecidableEq, Repr

/-- The `page.on('console', ...)` handler. -/
def onConsole (s : CaptureState) (now : Nat) (e : ConsoleEvent) : CaptureState :=
  let level : LogLevel :=
    if jsToUpper e.type = "ERROR" then .ERROR
    else if jsToUpper e.type = "WARNING" then .WARN
    else .INFO
  let s1 :=
    if jsToUpper e.type = "ERROR" then { s with errors := s.errors + 1 }
    else if jsToUpper e.type = "WARNING" then { s with warnings := s.warnings + 1 }
    else s
  logMessage s1 now level
    (formatLocation s.baseUrl e.url (.jnum e.lineNumber) e.columnNumber)
    e.text

/-- One backtracking step of the regex `/at (.*?):(\d+):(\d+)/` after a
literal `"at "` has matched: `acc` holds the (reversed) lazy group so far;
at each position we first try to finish with `:(\d+):(\d+)` (the greedy
`\d+` runs must be maximal, since a shorter run would leave a digit where
`:` is required), and otherwise extend the lazy dot group by one
non-newline character.  Returns the three captures as character lists. -/
def matchTail (acc : List Char) (l : List Char) :
    Option (List Char × List Char × List Char) :=
  match l with
  | [] => none
  | c :: cs =>
    let tryHere : Option (List Char × List Char × List Char) :=
      if c = ':' then
        let p1 := cs.span Char.isDigit
        if p1.1.isEmpty then none
        else match p1.2 with
          | ':' :: r2 =>
            let p2 := r2.span Char.isDigit
            if p2.1.isEmpty then none else some (acc.reverse, p1.1, p2.1)
          | _ => none
      else none
    match tryHere with
    | some r => some r
    | none => if c = '\n' then none else matchTail (c :: acc) cs

/-- Leftmost match of `/at (.*?):(\d+):(\d+)/` over a subject string: scan
for the literal `"at "`, attempt the tail match there, and on failure resume
the scan one character further. -/
def scanStack (l : List Char) : Option (List Char × List Char × List Char) :=
  match l with
  | [] => none
  | c :: cs =>
    match c, cs with
    | 'a', 't' :: ' ' :: rest =>
      match matchTail [] rest with
      | some r => some r
      | none => scanStack cs
    | _, _ => scanStack cs

/-- `subject.match(/at (.*?):(\d+):(\d+)/)` returning the three captures. -/
def stackFrameMatch (subject : String) :
    Option (String × String × String) :=
  match scanStack subject.toList with
  | some (g1, d1, d2) => some (g1.asString, d1.asString, d2.asString)
  | none => none

/-- The `page.on('pageerror', ...)` handler: matches the frame pattern
against `error.stack || error.message`, always increments `errors`, and logs
an `ERROR` record with text `"Uncaught: " + error.message`.  The regex
captures are strings, so they enter `_formatLocation` as `jstr` values. -/
def onPageError (s : CaptureState) (now : Nat) (e : PageErrorEvent) : CaptureState :=
  let subject :=
    match e.stack with
    | some st => if st = "" then e.message else st
    | none => e.message
  let m := stackFrameMatch subject
  let s1 := { s with errors := s.errors + 1 }
  logMessage s1 now .ERROR
    (match m with
     | some (f, ln, cn) => formatLocation s.baseUrl f (.jstr ln) (.jstr cn)
     | none => "")
    ("Uncaught: " ++ e.message)

/-- The `page.on('response', ...)` handler: only statuses `>= 400` are
considered; the dedup key is the raw URL, the display URL is the raw URL
with the first occurrence of `baseUrl` removed (no leading-slash strip,
unlike `_formatLocation`). -/
def onResponse (s : CaptureState) (now : Nat) (e : ResponseEvent) : CaptureState :=
  if 400 ≤ e.status then
    let displayUrl := if s.baseUrl ≠ "" then replaceFirst e.url s.baseUrl else e.url
    if e.url ∈ s.reportedErrors then s
    else
      let s1 := { s with reportedErrors := s.reportedErrors ++ [e.url]
                         errors := s.errors + 1 }
      logMessage s1 now .ERROR displayUrl
        ("HTTP " ++ toString e.status ++ " (" ++ e.statusText ++ ")")
  else s

/-- One delivered event of any of the three streams. -/
inductive Event where
  | console : ConsoleEvent → Event
  | pageerror : PageErrorEvent → Event
  | response : ResponseEvent → Event
deriving DecidableEq, Repr

/-- Dispatch of one event delivered at wall-clock instant `now`. -/
def stepEvent (s : CaptureState) (now : Nat) : Event → CaptureState
  | .console e => onConsole s now e
  | .pageerror e => onPageError s now e
  | .response e => onResponse s now e

/-- Run a whole trace of timestamped events. -/
def runEvents (s : CaptureState) (trace : List (Nat × Event)) : CaptureState :=
  trace.foldl (fun acc te => stepEvent acc te.1 te.2) s

/-- Count of stored messages with a given level. -/
def countLevel (lvl : LogLevel) (msgs : List Msg) : Nat :=
  (msgs.filter (fun m => m.level = lvl)).length

/-- `getSummary()` at wall-clock instant `now`: message count, error count,
warning count, and the elapsed string computed at call time. -/
def getSummary (s : CaptureState) (now : Nat) : Nat × Nat × Nat × String :=
  (s.messages.length, s.errors, s.warnings, toFixed1 (now - s.startTime))

/-- Civil date from a day count since 1970-01-01 (proleptic Gregorian,
valid for non-negative day counts, i.e. dates from 1970 on). -/
def civilFromDays (z0 : Nat) : Nat × Nat × Nat :=
  let z := z0 + 719468
  let era := z / 146097
  let doe := z % 146097
  let yoe := (doe - doe / 1460 + doe / 36524 - doe / 146096) / 365
  let doy := doe - (365 * yoe + yoe / 4 - yoe / 100)
  let mp := (5 * doy + 2) / 153
  let d := doy - (153 * mp + 2) / 5 + 1
  let m := if mp < 10 then mp + 3 else mp - 9
  let y := if m ≤ 2 then yoe + era * 400 + 1 else yoe + era * 400
  (y, m, d)

/-- UTC broken-down time (year, month, day, hour, minute, second) of an
epoch-millisecond instant. -/
def dateTimeOfEpoch (ms : Nat) : Nat × Nat × Nat × Nat × Nat × Nat :=
  let ymd := civilFromDays (ms / 86400000)
  let t := ms % 86400000
  (ymd.1, ymd.2.1, ymd.2.2, t / 3600000, t % 3600000 / 60000, t % 60000 / 1000)

/-- Four-digit zero-padded year. -/
def pad4 (n : Nat) : String :=
  if n < 10 then "000" ++ toString n
  else if n < 100 then "00" ++ toString n
  else if n < 1000 then "0" ++ toString n
  else toString n

/-- `new Date(ms).toISOString().slice(0, 19).replace('T', ' ')`:
`YYYY-MM-DD HH:MM:SS` in UTC. -/
def startString (ms : Nat) : String :=
  let dt := dateTimeOfEpoch ms
  pad4 dt.1 ++ "-" ++ pad2 dt.2.1 ++ "-" ++ pad2 dt.2.2.1 ++ " " ++
    pad2 dt.2.2.2.1 ++ ":" ++ pad2 dt.2.2.2.2.1 ++ ":" ++ pad2 dt.2.2.2.2.2

/-- `endTime.toISOString().slice(0, 10)`: `YYYY-MM-DD` in UTC. -/
def dateString (ms : Nat) : String :=
  let dt := dateTimeOfEpoch ms
  pad4 dt.1 ++ "-" ++ pad2 dt.2.1 ++ "-" ++ pad2 dt.2.2.1

/-- `endTime.toLocaleTimeString('en-US', 2-digit hour and minute, 12-hour)
.toLowerCase().replace(' ', '')`: `hh:mmam` or `hh:mmpm` (UTC here; the
source uses the host timezone, an ambient parameter this model fixes to
UTC — the claims settled below depend only on the minute field changing
with the render instant, which holds in every fixed timezone). -/
def localTimeString (ms : Nat) : String :=
  let dt := dateTimeOfEpoch ms
  let h := dt.2.2.2.1
  let mi := dt.2.2.2.2.1
  let h12 := if h % 12 = 0 then 12 else h % 12
  pad2 h12 ++ ":" ++ pad2 mi ++ (if h < 12 then "am" else "pm")

/-- Insert a message into an accumulator list, after every element whose
`time` is not greater: one step of a stable sort by `time`. -/
def insertByTime (m : Msg) : List Msg → List Msg
  | [] => [m]
  | x :: xs => if x.time ≤ m.time then x :: insertByTime m xs else m :: x :: xs

/-- Stable sort of the messages array by the comparator
`(a, b) => a.time - b.time`, as `Array.prototype.sort` performs (stable per
the ECMAScript specification).  Any two stable sorts under the same total
preorder produce identical output, so this left-fold insertion sort is the
function computed by the source's in-place sort. -/
def sortByTime (l : List Msg) : List Msg :=
  l.foldl (fun acc m => insertByTime m acc) []

/-- One rendered report line:
`${msg.timestamp} ${msg.level}:${msg.location ? '\t' + msg.location : ''}\t${msg.text}\n`. -/
def msgLine (m : Msg) : String :=
  m.timestamp ++ " " ++ m.level.render ++ ":" ++
    (if m.location ≠ "" then "\t" ++ m.location else "") ++ "\t" ++ m.text ++ "\n"

/-- The concatenated report lines of a message list. -/
def messageLines (msgs : List Msg) : String :=
  String.join (msgs.map msgLine)

/-- The report header: title line, start/elapsed line, and tallies line
(the elapsed seconds string is passed in explicitly). -/
def headerStr (s : CaptureState) (title elapsed : String) : String :=
  "# " ++ title ++ "\n# Started: " ++ startString s.startTime ++
    " | Elapsed: " ++ elapsed ++ "s\n# Errors: " ++ toString s.errors ++
    " | Warnings: " ++ toString s.warnings ++ " | Total Messages: " ++
    toString s.messages.length ++ "\n\n"

/-- The report trailer lines emitted when the tallies are non-zero. -/
def trailerStr (s : CaptureState) : String :=
  (if 0 < s.errors then
     "\n❌ ERROR: " ++ toString s.errors ++ " SEVERE logs detected!\n" else "") ++
  (if 0 < s.warnings then
     "⚠️  WARNING: " ++ toString s.warnings ++ " warning logs detected!\n" else "")

/-- The completion footer, built from the render instant. -/
def footerStr (now : Nat) : String :=
  "\n## Console capture complete on " ++ dateString now ++ " @" ++
    localTimeString now ++ " ##\n"

/-- The report text of `getOutput(title)` at render instant `now`, with the
header's elapsed-seconds field abstracted into the parameter `elapsed`; the
actual output instantiates it with `toFixed1 (now - startTime)`. -/
def getOutputWithElapsed (s : CaptureState) (now : Nat) (title elapsed : String) : String :=
  headerStr s title elapsed ++ messageLines (sortByTime s.messages) ++
    trailerStr s ++ footerStr now

/-- `getOutput(title)` at render instant `now`: the report string together
with the state after the call — the in-place `this.messages.sort(...)` is
the only mutation the renderer performs. -/
def getOutput (s : CaptureState) (now : Nat) (title : String) :
    String × CaptureState :=
  (getOutputWithElapsed s now title (toFixed1 (now - s.startTime)),
   { s with messages := sortByTime s.messages })

/-- Host of an absolute URL: the characters between `"://"` and the first
`/`, `?` or `#`.  Models `new URL(url).host` for the lowercase, portless,
userinfo-free http(s) URLs exercised here. -/
def splitScheme : List Char → Option (List Char × List Char)
  | [] => none
  | ':' :: '/' :: '/' :: rest => some ([], rest)
  | c :: cs =>
    match splitScheme cs with
    | some p => some (c :: p.1, p.2)
    | none => none

/-- `parsedUrl.protocol + '//' + parsedUrl.host` (see `splitScheme` for the
modelled URL fragment). -/
def urlOrigin (url : String) : String :=
  match splitScheme url.toList with
  | some (scheme, rest) =>
    scheme.asString ++ "://" ++
      (rest.takeWhile (fun c => c ≠ '/' ∧ c ≠ '?' ∧ c ≠ '#')).asString
  | none => url

/-- State of `attachConsoleCapture(page, options)`: the mutable
`options.baseUrl` cell that the one-shot `framenavigated` handler writes
into, the constructed capture instance (which copied `options.baseUrl` at
construction), and whether the once-handler is still pending. -/
structure AttachState where
  optionsBaseUrl : String
  capture : CaptureState
  oncePending : Bool
deriving DecidableEq, Repr

/-- `attachConsoleCapture(page, options)` at construction instant `now`:
when `options.baseUrl` is falsy a `page.once('framenavigated', ...)` handler
is registered, then `new ConsoleCapture(page, options)` runs synchronously —
so the instance copies the still-empty `options.baseUrl` before any
navigation can fire the handler. -/
def attachConsoleCapture (optBaseUrl : String) (now : Nat) : AttachState :=
  { optionsBaseUrl := optBaseUrl
    capture := initState optBaseUrl now
    oncePending := optBaseUrl = "" }

/-- Delivery of a `framenavigated` event: a `once` handler is consumed by
its first delivery whether or not the guarded body runs; the body writes the
learned origin into `options.baseUrl` only — never into the already
constructed capture instance. -/
def onFrameNavigated (a : AttachState) (isMainFrame : Bool) (url : String) :
    AttachState :=
  if a.oncePending then
    if isMainFrame ∧ url ≠ "" ∧ "http".toList.isPrefixOf url.toList then
      { a with optionsBaseUrl := urlOrigin url, oncePending := false }
    else { a with oncePending := false }
  else a

/-- Modelled from the spec, for refinement comparison only: the
location/path display normalization as the spec's words define it — when the
prefix is non-empty and the raw string starts with it, strip it and remove a
single leading path separator; otherwise return the raw string unchanged. -/
def specDisplayNormalize (base raw : String) : String :=
  if base ≠ "" ∧ base.toList.isPrefixOf raw.toList then
    stripLeadSlash ((raw.toList.drop base.toList.length).asString)
  else raw

/-- A trace is chronological from lower bound `t0`: delivery instants are
non-decreasing (the wall clock read by successive `Date.now()` calls). -/
def Chrono : Nat → List (Nat × Event) → Prop
  | _, [] => True
  | t0, (t, _) :: r => t0 ≤ t ∧ Chrono t r

/-- Comparator order used by the report's sort. -/
def timeLE (a b : Msg) : Prop := a.time ≤ b.time

/-- The end-to-end scenario of the spec's testable properties: one INFO
console event, one WARN console event, two 404 responses for `/a.js`, and
one uncaught exception with message `x is not defined` and no extractable
stack frame. -/
def scenarioTrace : List (Nat × Event) :=
  [(10, .console ⟨"log", "", 0, .jnull, "hello"⟩),
   (20, .console ⟨"warning", "", 0, .jnull, "careful"⟩),
   (30, .response ⟨"/a.js", 404, "Not Found"⟩),
   (40, .response ⟨"/a.js", 404, "Not Found"⟩),
   (50, .pageerror ⟨"x is not defined", none⟩)]

/- ------------------------------------------------------------------ -/
/- Helper lemmas                                                       -/
/- ------------------------------------------------------------------ -/

theorem countLevel_append (lvl : LogLevel) (l : List Msg) (m : Msg) :
    countLevel lvl (l ++ [m]) =
      countLevel lvl l + (if m.level = lvl then 1 else 0) := by
  simp only [countLevel, List.filter_append, List.length_append]
  by_cases h : m.level = lvl <;> simp [h]

theorem logMessage_messages (s : CaptureState) (now : Nat) (level : LogLevel)
    (location text : String) :
    (logMessage s now level location text).messages =
      s.messages ++ [{ timestamp := getTimestamp s now, level := level,
                       location := location, text := text, time := now }] := rfl

theorem stepEvent_counts (s : CaptureState) (t : Nat) (e : Event)
    (he : s.errors = countLevel .ERROR s.messages)
    (hw : s.warnings = countLevel .WARN s.messages) :
    (stepEvent s t e).errors = countLevel .ERROR (stepEvent s t e).messages ∧
      (stepEvent s t e).warnings = countLevel .WARN (stepEvent s t e).messages := by
  cases e with
  | console e =>
    simp only [stepEvent, onConsole, logMessage]
    by_cases h1 : jsToUpper e.type = "ERROR"
    · simp [h1, countLevel_append, he, hw]
    · by_cases h2 : jsToUpper e.type = "WARNING" <;>
        simp [h1, h2, countLevel_append, he, hw]
  | pageerror e =>
    simp [stepEvent, onPageError, logMessage, countLevel_append, he, hw]
  | response e =>
    simp only [stepEvent, onResponse]
    by_cases h1 : 400 ≤ e.status
    · by_cases h2 : e.url ∈ s.reportedErrors <;>
        simp [h1, h2, logMessage, countLevel_append, he, hw]
    · simp [h1, he, hw]

theorem stepEvent_mono (s : CaptureState) (t : Nat) (e : Event) :
    s.errors ≤ (stepEvent s t e).errors ∧
      s.warnings ≤ (stepEvent s t e).warnings := by
  cases e with
  | console e =>
    simp only [stepEvent, onConsole, logMessage]
    by_cases h1 : jsToUpper e.type = "ERROR"
    · simp [h1]
    · by_cases h2 : jsToUpper e.type = "WARNING" <;> simp [h1, h2]
  | pageerror e => simp [stepEvent, onPageError, logMessage]
  | response e =>
    simp only [stepEvent, onResponse]
    by_cases h1 : 400 ≤ e.status
    · by_cases h2 : e.url ∈ s.reportedErrors <;> simp [h1, h2, logMessage]
    · simp [h1]

theorem runEvents_counts (trace : List (Nat × Event)) :
    ∀ s : CaptureState,
      s.errors = countLevel .ERROR s.messages →
      s.warnings = countLevel .WARN s.messages →
      (runEvents s trace).errors = countLevel .ERROR (runEvents s trace).messages ∧
        (runEvents s trace).warnings = countLevel .WARN (runEvents s trace).messages := by
  induction trace with
  | nil => intro s he hw; exact ⟨he, hw⟩
  | cons te r ih =>
    intro s he hw
    have h := stepEvent_counts s te.1 te.2 he hw
    exact ih (stepEvent s te.1 te.2) h.1 h.2

theorem runEvents_mono (more : List (Nat × Event)) :
    ∀ s : CaptureState,
      s.errors ≤ (runEvents s more).errors ∧
        s.warnings ≤ (runEvents s more).warnings := by
  induction more with
  | nil => intro s; exact ⟨le_refl _, le_refl _⟩
  | cons te r ih =>
    intro s
    have h1 := stepEvent_mono s te.1 te.2
    have h2 := ih (stepEvent s te.1 te.2)
    exact ⟨le_trans h1.1 h2.1, le_trans h1.2 h2.2⟩

theorem insertByTime_of_ge (m : Msg) (acc : List Msg)
    (h : ∀ x ∈ acc, x.time ≤ m.time) :
    insertByTime m acc = acc ++ [m] := by
  induction acc with
  | nil => rfl
  | cons x xs ih =>
    simp only [insertByTime, if_pos (h x (List.mem_cons_self x xs))]
    rw [ih (fun y hy => h y (List.mem_cons_of_mem x hy))]
    rfl

theorem insertByTime_length (m : Msg) (acc : List Msg) :
    (insertByTime m acc).length = acc.length + 1 := by
  induction acc with
  | nil => rfl
  | cons x xs ih =>
    simp only [insertByTime]
    by_cases h : x.time ≤ m.time <;> simp [h, ih]

theorem sortByTime_foldl_sorted (l : List Msg) :
    ∀ acc : List Msg, List.Pairwise timeLE (acc ++ l) →
      l.foldl (fun a m => insertByTime m a) acc = acc ++ l := by
  induction l with
  | nil => intro acc _; simp
  | cons m ms ih =>
    intro acc hp
    have hmem : ∀ x ∈ acc, x.time ≤ m.time := by
      intro x hx
      have := (List.pairwise_append.mp hp).2.2 x hx m (List.mem_cons_self m ms)
      exact this
    have hstep : insertByTime m acc = acc ++ [m] := insertByTime_of_ge m acc hmem
    have hp' : List.Pairwise timeLE ((acc ++ [m]) ++ ms) := by
      rwa [List.append_assoc, List.singleton_append]
    calc (m :: ms).foldl (fun a x => insertByTime x a) acc
        = ms.foldl (fun a x => insertByTime x a) (insertByTime m acc) := rfl
      _ = ms.foldl (fun a x => insertByTime x a) (acc ++ [m]) := by rw [hstep]
      _ = (acc ++ [m]) ++ ms := ih (acc ++ [m]) hp'
      _ = acc ++ m :: ms := by rw [List.append_assoc, List.singleton_append]

theorem sortByTime_eq_self (l : List Msg) (h : List.Pairwise timeLE l) :
    sortByTime l = l := by
  have := sortByTime_foldl_sorted l [] (by simpa using h)
  simpa [sortByTime] using this

theorem sortByTime_length (l : List Msg) :
    (sortByTime l).length = l.length := by
  have aux : ∀ (l acc : List Msg),
      (l.foldl (fun a m => insertByTime m a) acc).length = acc.length + l.length := by
    intro l
    induction l with
    | nil => intro acc; simp
    | cons m ms ih =>
      intro acc
      simp only [List.foldl_cons, List.length_cons]
      rw [ih (insertByTime m acc), insertByTime_length]
      omega
  simpa [sortByTime] using aux l []

theorem getOutput_state_of_sorted (s : CaptureState) (now : Nat) (title : String)
    (h : List.Pairwise timeLE s.messages) :
    (getOutput s now title).2 = s := by
  simp [getOutput, sortByTime_eq_self s.messages h]

theorem stepEvent_messages (s : CaptureState) (t : Nat) (e : Event) :
    (stepEvent s t e).messages = s.messages ∨
      ∃ m : Msg, m.time = t ∧ (stepEvent s t e).messages = s.messages ++ [m] := by
  cases e with
  | console e =>
    refine Or.inr ⟨{ timestamp := getTimestamp s t,
                     level := if jsToUpper e.type = "ERROR" then .ERROR
                              else if jsToUpper e.type = "WARNING" then .WARN
                              else .INFO,
                     location := formatLocation s.baseUrl e.url
                       (.jnum e.lineNumber) e.columnNumber,
                     text := e.text, time := t }, rfl, ?_⟩
    simp only [stepEvent, onConsole, logMessage]
    by_cases h1 : jsToUpper e.type = "ERROR"
    · simp [h1, getTimestamp]
    · by_cases h2 : jsToUpper e.type = "WARNING" <;> simp [h1, h2, getTimestamp]
  | pageerror e =>
    exact Or.inr ⟨{ timestamp := getTimestamp s t,
                    level := .ERROR,
                    location :=
                      match stackFrameMatch
                          (match e.stack with
                           | some st => if st = "" then e.message else st
                           | none => e.message) with
                      | some (f, ln, cn) =>
                        formatLocation s.baseUrl f (.jstr ln) (.jstr cn)
                      | none => "",
                    text := "Uncaught: " ++ e.message, time := t },
      rfl, by simp [stepEvent, onPageError, logMessage, getTimestamp]⟩
  | response e =>
    by_cases h1 : 400 ≤ e.status
    · by_cases h2 : e.url ∈ s.reportedErrors
      · exact Or.inl (by simp [stepEvent, onResponse, h1, h2])
      · refine Or.inr ⟨{ timestamp := getTimestamp s t,
                         level := .ERROR,
                         location := if s.baseUrl ≠ "" then
                             replaceFirst e.url s.baseUrl else e.url,
                         text := "HTTP " ++ toString e.status ++ " (" ++
                           e.statusText ++ ")", time := t }, rfl, ?_⟩
        simp [stepEvent, onResponse, h1, h2, logMessage, getTimestamp]
    · exact Or.inl (by simp [stepEvent, onResponse, h1])

theorem runEvents_sorted (trace : List (Nat × Event)) :
    ∀ (s : CaptureState) (t0 : Nat),
      List.Pairwise timeLE s.messages →
      (∀ m ∈ s.messages, m.time ≤ t0) →
      Chrono t0 trace →
      List.Pairwise timeLE (runEvents s trace).messages := by
  induction trace with
  | nil => intro s t0 hs _ _; exact hs
  | cons te r ih =>
    intro s t0 hs hb hc
    obtain ⟨h0t, hcr⟩ := hc
    have hstep := stepEvent_messages s te.1 te.2
    have hs' : List.Pairwise timeLE (stepEvent s te.1 te.2).messages := by
      rcases hstep with h | ⟨m, hm, h⟩
      · rwa [h]
      · rw [h, List.pairwise_append]
        refine ⟨hs, List.pairwise_singleton _ _, ?_⟩
        intro a ha b hb'
        rw [List.mem_singleton] at hb'
        subst hb'
        exact le_trans (le_trans (hb a ha) h0t) (le_of_eq hm.symm)
    have hb' : ∀ m ∈ (stepEvent s te.1 te.2).messages, m.time ≤ te.1 := by
      rcases hstep with h | ⟨m, hm, h⟩
      · rw [h]; intro x hx; exact le_trans (hb x hx) h0t
      · rw [h]; intro x hx
        rcases List.mem_append.mp hx with hx | hx
        · exact le_trans (hb x hx) h0t
        · rw [List.mem_singleton] at hx; subst hx; exact le_of_eq hm
    exact ih (stepEvent s te.1 te.2) te.1 hs' hb' hcr

theorem replaceFirstList_prefix (p t : List Char) :
    replaceFirstList (p ++ t) p = t := by
  cases p with
  | nil =>
    cases t with
    | nil => rfl
    | cons c cs =>
      simp only [List.nil_append, replaceFirstList]
      rw [if_pos (by simp [List.isPrefixOf])]
      rfl
  | cons a p' =>
    have hpre : (a :: p').isPrefixOf (a :: (p' ++ t)) = true :=
      List.isPrefixOf_iff_prefix.mpr (List.prefix_append (a :: p') t)
    simp only [List.cons_append, replaceFirstList, List.append_eq, hpre, if_true]
    exact List.drop_left (a :: p') t

theorem replaceFirstList_not_infix (s pat : List Char) (h : ¬ pat <:+: s) :
    replaceFirstList s pat = s := by
  induction s with
  | nil => rfl
  | cons c cs ih =>
    simp only [replaceFirstList]
    rw [if_neg, ih]
    · intro hinf
      exact h (List.infix_cons hinf)
    · intro hpre
      exact h (List.isPrefixOf_iff_prefix.mp hpre).isInfix

theorem string_append_ne_empty (a b : String) (ha : a ≠ "") : a ++ b ≠ "" := by
  intro h
  apply ha
  have hd : a.data ++ b.data = [] := by
    have := congrArg String.data h
    rwa [String.data_append] at this
  have : a.data = [] := (List.append_eq_nil.mp hd).1
  cases a
  simp_all

theorem replaceFirst_of_prefix (bu tail : String) :
    replaceFirst (bu ++ tail) bu = tail := by
  have : (bu ++ tail).toList = bu.toList ++ tail.toList := rfl
  rw [replaceFirst, this, replaceFirstList_prefix]
  exact String.asString_toList tail

theorem replaceFirst_of_not_infix (url bu : String)
    (h : ¬ bu.toList <:+: url.toList) : replaceFirst url bu = url := by
  rw [replaceFirst, replaceFirstList_not_infix _ _ h]
  exact String.asString_toList url

theorem replaceFirstList_mid (pat suf : List Char) :
    ∀ pre : List Char,
      (∀ i, i < pre.length → ¬ pat.isPrefixOf ((pre ++ pat ++ suf).drop i)) →
      replaceFirstList (pre ++ pat ++ suf) pat = pre ++ suf := by
  intro pre
  induction pre with
  | nil =>
    intro _
    simpa using replaceFirstList_prefix pat suf
  | cons c pre' ih =>
    intro hocc
    have h0 : ¬ pat.isPrefixOf (c :: (pre' ++ pat ++ suf)) = true := by
      have h1 := hocc 0 (by simp)
      simpa using h1
    have h' : ∀ i, i < pre'.length →
        ¬ pat.isPrefixOf ((pre' ++ pat ++ suf).drop i) = true := by
      intro i hi
      have h2 := hocc (i + 1) (by simp [hi])
      simpa using h2
    simp only [List.cons_append, replaceFirstList, List.append_eq]
    rw [if_neg h0, ih h']

theorem asString_ne_empty (l : List Char) (h : l ≠ []) : l.asString ≠ "" := by
  intro he
  apply h
  have h2 := congrArg String.toList he
  rw [List.toList_asString] at h2
  exact h2

theorem toList_ne_nil (s : String) (h : s ≠ "") : s.toList ≠ [] := by
  intro he
  apply h
  have h2 := congrArg List.asString he
  rw [String.asString_toList] at h2
  exact h2

/- ------------------------------------------------------------------ -/
/- Claim theorems                                                      -/
/- ------------------------------------------------------------------ -/

/-- C1 (counterexample): the first 404 for `https://example.com/a.js` under
`basePathPrefix = "https://example.com"` stores a record whose location is
`"/a.js"` — the raw URL with the prefix removed but the leading path
separator kept — while the display normalization the spec defines (strip
prefix, then remove a single leading separator) yields `"a.js"`.  So the
stored location is not the display-normalized URL. -/
theorem resourceDedupLocationCounterexample :
    (onResponse (initState "https://example.com" 0) 0
        ⟨"https://example.com/a.js", 404, "Not Found"⟩).messages.map Msg.location =
      ["/a.js"] ∧
    specDisplayNormalize "https://example.com" "https://example.com/a.js" = "a.js" ∧
    ("/a.js" : String) ≠ "a.js" := by
  decide

/-- C1 (amended): for every completed-response event with numeric status
`>= 400`, the adapter dedups on the exact raw resource URL: the first event
for a URL records the key, increments `errors`, and appends exactly one
ERROR record whose location is the raw URL with the first occurrence of
`baseUrl` removed (leading separator retained) and whose text is
`HTTP <status> (<statusText>)`; every later `>= 400` event for the same URL
leaves the state completely unchanged. -/
theorem resourceDedupAmended (s : CaptureState) (now : Nat) (e : ResponseEvent)
    (h : 400 ≤ e.status) :
    (e.url ∉ s.reportedErrors →
      onResponse s now e =
        { s with
            reportedErrors := s.reportedErrors ++ [e.url]
            errors := s.errors + 1
            messages := s.messages ++
              [{ timestamp := getTimestamp s now
                 level := .ERROR
                 location := if s.baseUrl ≠ "" then replaceFirst e.url s.baseUrl
                             else e.url
                 text := "HTTP " ++ toString e.status ++ " (" ++ e.statusText ++ ")"
                 time := now }] }) ∧
    (e.url ∈ s.reportedErrors → onResponse s now e = s) := by
  constructor
  · intro h2
    simp [onResponse, h, h2, logMessage, getTimestamp]
  · intro h2
    simp [onResponse, h, h2]

/-- C1 (witness): two 404 responses for the same URL — the first appends one
ERROR record and tallies one error, the second is a no-op. -/
theorem resourceDedupAmendedWitness :
    onResponse (initState "" 0) 5 ⟨"/missing.js", 404, "Not Found"⟩ =
      { initState "" 0 with
          reportedErrors := [("/missing.js" : String)]
          errors := 1
          messages := [{ timestamp := getTimestamp (initState "" 0) 5
                         level := .ERROR
                         location := ("/missing.js" : String)
                         text := "HTTP 404 (Not Found)"
                         time := 5 }] } ∧
    onResponse { initState "" 0 with reportedErrors := ["/missing.js"] } 9
        ⟨"/missing.js", 404, "Not Found"⟩ =
      { initState "" 0 with reportedErrors := ["/missing.js"] } := by
  constructor
  · have h := (resourceDedupAmended (initState "" 0) 5
      ⟨"/missing.js", 404, "Not Found"⟩ (by decide)).1 (by decide)
    rw [h]
    decide
  · exact (resourceDedupAmended
      { initState "" 0 with reportedErrors := ["/missing.js"] } 9
      ⟨"/missing.js", 404, "Not Found"⟩ (by decide)).2 (by decide)

/-- C2: after any trace of events — and hence after every individual event,
since every prefix of a trace is itself a trace — `errors` equals the number
of stored records with level ERROR and `warnings` the number with level
WARN; and along any continuation of the trace both tallies are monotonically
non-decreasing. -/
theorem countersMatchLevels (baseUrl : String) (startTime : Nat)
    (trace : List (Nat × Event)) :
    (runEvents (initState baseUrl startTime) trace).errors =
      countLevel .ERROR (runEvents (initState baseUrl startTime) trace).messages ∧
    (runEvents (initState baseUrl startTime) trace).warnings =
      countLevel .WARN (runEvents (initState baseUrl startTime) trace).messages ∧
    ∀ more : List (Nat × Event),
      (runEvents (initState baseUrl startTime) trace).errors ≤
        (runEvents (runEvents (initState baseUrl startTime) trace) more).errors ∧
      (runEvents (initState baseUrl startTime) trace).warnings ≤
        (runEvents (runEvents (initState baseUrl startTime) trace) more).warnings := by
  have h := runEvents_counts trace (initState baseUrl startTime) rfl rfl
  exact ⟨h.1, h.2, fun more => runEvents_mono more _⟩

/-- C3: feeding an aggregator one INFO console event, one WARN console
event, two 404 responses for `/a.js`, and one uncaught exception with
message `x is not defined` and no extractable stack frame yields a summary
with 4 messages, 2 errors and 1 warning, and the uncaught-exception record
has text `Uncaught: x is not defined` and empty location.  (The `autoLog` /
`autoEmit` flag only affects live printing, never the stored state.) -/
theorem endToEndScenario :
    (getSummary (runEvents (initState "" 0) scenarioTrace) 50).1 = 4 ∧
      (getSummary (runEvents (initState "" 0) scenarioTrace) 50).2.1 = 2 ∧
      (getSummary (runEvents (initState "" 0) scenarioTrace) 50).2.2.1 = 1 ∧
      (runEvents (initState "" 0) scenarioTrace).messages.getLast?.map
          (fun m => (m.text, m.location)) =
        some ("Uncaught: x is not defined", "") := by
  decide

/-- C4 (counterexample): with `basePathPrefix = "https://example.com"` the
raw location `/a.js` does not start with the prefix, yet normalization does
not return it unchanged — the leading slash is stripped anyway, giving
`a.js`; and a present column `0` is not appended (`f.js:3`, not
`f.js:3:0`). -/
theorem formatLocationCounterexample :
    formatLocation "https://example.com" "/a.js" (.jnum 0) .jnull = "a.js" ∧
      ("a.js" : String) ≠ "/a.js" ∧
      formatLocation "" "f.js" (.jnum 3) (.jnum 0) = "f.js:3" ∧
      ("f.js:3" : String) ≠ "f.js:3:0" := by
  decide

/-- C4 (amended): location normalization behaves as follows — an empty or
absent path always yields the empty location; an empty prefix passes the
path through; a non-empty prefix is removed at its first occurrence
anywhere in the string (writing the string as `pre ++ prefix ++ suf` with
no occurrence starting inside `pre`, the result before the slash strip is
`pre ++ suf`; when the string starts with the prefix this is the plain
prefix strip) and then at most one leading `/` is removed from the result,
even when the prefix does not occur at all; a positive line number appends
`:<line>`, and `:<line>:<column>` exactly when the column is present and
nonzero. -/
theorem formatLocationAmended :
    (∀ (bu : String) (ln col : JVal), formatLocation bu "" ln col = "") ∧
    (∀ (url : String) (ln : Nat), url ≠ "" →
      formatLocation "" url (.jnum ln) .jnull =
        (if 0 < ln then url ++ ":" ++ toString ln else url)) ∧
    (∀ bu tail : String, bu ≠ "" →
      formatLocation bu (bu ++ tail) (.jnum 0) .jnull = stripLeadSlash tail) ∧
    (∀ (bu : String) (pre suf : List Char), bu ≠ "" →
      (∀ i, i < pre.length →
        ¬ bu.toList.isPrefixOf ((pre ++ bu.toList ++ suf).drop i)) →
      formatLocation bu ((pre ++ bu.toList ++ suf).asString) (.jnum 0) .jnull =
        stripLeadSlash ((pre ++ suf).asString)) ∧
    (∀ bu url : String, bu ≠ "" → url ≠ "" → ¬ bu.toList <:+: url.toList →
      formatLocation bu url (.jnum 0) .jnull = stripLeadSlash url) ∧
    (∀ (bu url : String) (ln c : Nat), url ≠ "" → 0 < ln →
      formatLocation bu url (.jnum ln) (.jnum c) =
        (if c ≠ 0 then
          formatLocation bu url (.jnum 0) .jnull ++ ":" ++ toString ln ++ ":" ++
            toString c
        else formatLocation bu url (.jnum 0) .jnull ++ ":" ++ toString ln)) := by
  refine ⟨?_, ?_, ?_, ?_, ?_, ?_⟩
  · intro bu ln col
    simp [formatLocation]
  · intro url ln h
    by_cases hln : 0 < ln <;>
      simp [formatLocation, JVal.gtZero, JVal.truthy, JVal.render, h, hln]
  · intro bu tail hbu
    have hne := string_append_ne_empty bu tail hbu
    simp [formatLocation, hne, hbu, JVal.gtZero, replaceFirst_of_prefix]
  · intro bu pre suf hbu hocc
    have hbl : bu.toList ≠ [] := toList_ne_nil bu hbu
    have hne : (pre ++ bu.toList ++ suf).asString ≠ "" := by
      apply asString_ne_empty
      intro h
      have h1 := List.append_eq_nil.mp h
      exact hbl (List.append_eq_nil.mp h1.1).2
    have hrf : replaceFirst ((pre ++ bu.toList ++ suf).asString) bu =
        (pre ++ suf).asString := by
      rw [replaceFirst, List.toList_asString,
        replaceFirstList_mid bu.toList suf pre hocc]
    simp only [formatLocation, JVal.gtZero]
    rw [if_neg hne, if_pos hbu, hrf]
    simp
  · intro bu url hbu hurl hinf
    simp [formatLocation, hurl, hbu, JVal.gtZero, replaceFirst_of_not_infix url bu hinf]
  · intro bu url ln c hurl hln
    by_cases hc : c = 0 <;>
      simp [formatLocation, hurl, hln, hc, JVal.gtZero, JVal.truthy, JVal.render]

/-- C4 (witness): with prefix `https://example.com`, the raw location
`https://example.com/app.js` at line 10, column 5 renders as
`app.js:10:5`, the spec's own example; and with prefix `com` occurring
mid-string in `a.com/x`, the first occurrence is removed, giving `a./x`. -/
theorem formatLocationAmendedWitness :
    formatLocation "https://example.com" ("https://example.com" ++ "/app.js")
        (.jnum 10) (.jnum 5) = "app.js:10:5" ∧
    formatLocation "com" ((['a', '.'] ++ "com".toList ++ ['/', 'x']).asString)
        (.jnum 0) .jnull = "a./x" := by
  constructor
  · rw [formatLocationAmended.2.2.2.2.2 "https://example.com"
      ("https://example.com" ++ "/app.js") 10 5 (by decide) (by decide)]
    rw [formatLocationAmended.2.2.1 "https://example.com" "/app.js" (by decide)]
    decide
  · rw [formatLocationAmended.2.2.2.1 "com" ['a', '.'] ['/', 'x']
      (by decide) (by decide)]
    decide

/-- C5 (code bug): `attachConsoleCapture` with no `baseUrl` registers a
one-shot navigation handler and then immediately constructs the capture
instance, which copies the still-empty `options.baseUrl`.  The handler later
writes the learned origin into the options object only, so the instance's
`baseUrl` stays empty and the learned prefix is never stripped from any
displayed location: after navigating to `https://example.com/`, a console
error at `https://example.com/app.js:10:5` is stored with the full URL as
its location, not `app.js:10:5` as the documented auto-detection implies
(and as the same instance would produce had the learned origin reached its
`baseUrl`, last conjunct). -/
theorem autoBaseUrlNeverApplied :
    (onFrameNavigated (attachConsoleCapture "" 0) true "https://example.com/").optionsBaseUrl
        = "https://example.com" ∧
    (onFrameNavigated (attachConsoleCapture "" 0) true "https://example.com/").capture.baseUrl
        = "" ∧
    (onConsole (onFrameNavigated (attachConsoleCapture "" 0) true
        "https://example.com/").capture 100
        ⟨"error", "https://example.com/app.js", 10, .jnum 5, "boom"⟩).messages.map
        Msg.location = ["https://example.com/app.js:10:5"] ∧
    formatLocation "https://example.com" "https://example.com/app.js"
        (.jnum 10) (.jnum 5) = "app.js:10:5" := by
  decide

/-- C6: rendering the report mutates no stored state — for any aggregator
state reached by a chronological event trace, the state after `getOutput`
(counters, dedup set, and the stored record sequence in its stored order) is
exactly the state before: the in-place stable sort by record time is the
identity on a chronologically built record list. -/
theorem renderPreservesState (baseUrl : String) (startTime : Nat)
    (trace : List (Nat × Event)) (h : Chrono 0 trace) (now : Nat) (title : String) :
    (getOutput (runEvents (initState baseUrl startTime) trace) now title).2 =
      runEvents (initState baseUrl startTime) trace := by
  apply getOutput_state_of_sorted
  exact runEvents_sorted trace (initState baseUrl startTime) 0
    List.Pairwise.nil (fun m hm => absurd hm (List.not_mem_nil m)) h

/-- C6 (witness): rendering after a two-event trace returns the state
unchanged. -/
theorem renderPreservesStateWitness :
    (getOutput (runEvents (initState "" 0)
        [(10, .console ⟨"log", "", 0, .jnull, "hi"⟩),
         (20, .response ⟨"/a.js", 404, "Not Found"⟩)]) 99 "T").2 =
      runEvents (initState "" 0)
        [(10, .console ⟨"log", "", 0, .jnull, "hi"⟩),
         (20, .response ⟨"/a.js", 404, "Not Found"⟩)] :=
  renderPreservesState "" 0
    [(10, .console ⟨"log", "", 0, .jnull, "hi"⟩),
     (20, .response ⟨"/a.js", 404, "Not Found"⟩)]
    ⟨Nat.zero_le 10, Nat.le_of_lt (by decide), trivial⟩ 99 "T"

/-- C7: the displayed timestamp is the elapsed time since aggregator start
at record-creation time, rendered with exactly two decimals and zero-padded
to a minimum width of five characters (`00.04`, `12.50`); the string is
frozen into the record when it is logged, and the report renderer only ever
concatenates the stored strings — the record section of the output does not
depend on the render instant. -/
theorem timestampFormatFrozen :
    elapsedString 40 = "00.04" ∧ elapsedString 12500 = "12.50" ∧
    (∀ ms : Nat, 5 ≤ (elapsedString ms).length) ∧
    (∀ (s : CaptureState) (now : Nat) (lvl : LogLevel) (loc txt : String),
      (logMessage s now lvl loc txt).messages =
        s.messages ++
          [{ timestamp := "[" ++ elapsedString (now - s.startTime) ++ "]",
             level := lvl, location := loc, text := txt, time := now }]) ∧
    (∀ (s : CaptureState) (now : Nat) (title : String),
      (getOutput s now title).1 =
        headerStr s title (toFixed1 (now - s.startTime)) ++
          messageLines (sortByTime s.messages) ++ trailerStr s ++ footerStr now) := by
  refine ⟨by decide, by decide, ?_, fun s now lvl loc txt => rfl,
    fun s now title => rfl⟩
  intro ms
  have h : (elapsedString ms).length =
      (5 - (toFixed2 ms).length) + (toFixed2 ms).length := by
    simp [elapsedString, padStart5, String.length_append, List.length_asString]
  omega

/-- C8: the console adapter maps the type tag case-insensitively — any
spelling uppercasing to `ERROR` yields an ERROR record and bumps `errors`,
any spelling uppercasing to `WARNING` yields a WARN record and bumps
`warnings`, anything else yields an INFO record with both tallies untouched
— and every console event appends exactly one record, never touching the
resource dedup set. -/
theorem consoleLevelMapping (s : CaptureState) (now : Nat) (e : ConsoleEvent) :
    (onConsole s now e).reportedErrors = s.reportedErrors ∧
    (onConsole s now e).messages.length = s.messages.length + 1 ∧
    (jsToUpper e.type = "ERROR" →
      (onConsole s now e).messages = s.messages ++
          [{ timestamp := getTimestamp s now, level := .ERROR,
             location := formatLocation s.baseUrl e.url (.jnum e.lineNumber)
               e.columnNumber,
             text := e.text, time := now }] ∧
        (onConsole s now e).errors = s.errors + 1 ∧
        (onConsole s now e).warnings = s.warnings) ∧
    (jsToUpper e.type = "WARNING" →
      (onConsole s now e).messages = s.messages ++
          [{ timestamp := getTimestamp s now, level := .WARN,
             location := formatLocation s.baseUrl e.url (.jnum e.lineNumber)
               e.columnNumber,
             text := e.text, time := now }] ∧
        (onConsole s now e).errors = s.errors ∧
        (onConsole s now e).warnings = s.warnings + 1) ∧
    (jsToUpper e.type ≠ "ERROR" → jsToUpper e.type ≠ "WARNING" →
      (onConsole s now e).messages = s.messages ++
          [{ timestamp := getTimestamp s now, level := .INFO,
             location := formatLocation s.baseUrl e.url (.jnum e.lineNumber)
               e.columnNumber,
             text := e.text, time := now }] ∧
        (onConsole s now e).errors = s.errors ∧
        (onConsole s now e).warnings = s.warnings) := by
  by_cases h1 : jsToUpper e.type = "ERROR"
  · refine ⟨?_, ?_, ?_, ?_, ?_⟩ <;>
      simp [onConsole, logMessage, getTimestamp, h1]
  · by_cases h2 : jsToUpper e.type = "WARNING" <;>
      refine ⟨?_, ?_, ?_, ?_, ?_⟩ <;>
        simp [onConsole, logMessage, getTimestamp, h1, h2]

/-- C8 (witness): the spelling `Error` (uppercasing to `ERROR`) produces one
ERROR record and bumps only the error tally. -/
theorem consoleLevelMappingWitness :
    (onConsole (initState "" 0) 5 ⟨"Error", "u.js", 2, .jnum 1, "x"⟩).errors =
        (initState "" 0).errors + 1 ∧
    (onConsole (initState "" 0) 5 ⟨"Error", "u.js", 2, .jnum 1, "x"⟩).warnings =
        (initState "" 0).warnings :=
  ⟨((consoleLevelMapping (initState "" 0) 5
      ⟨"Error", "u.js", 2, .jnum 1, "x"⟩).2.2.1 (by decide)).2.1,
   ((consoleLevelMapping (initState "" 0) 5
      ⟨"Error", "u.js", 2, .jnum 1, "x"⟩).2.2.1 (by decide)).2.2⟩

set_option maxRecDepth 10000 in
/-- C9 (counterexample): rendering twice with no intervening events is not
byte-identical up to the elapsed-time field alone — the completion footer
also carries the render-time clock.  Rendering a fresh aggregator at 0 ms
and again one minute later differs from the first output with only the
elapsed field updated, because the footer minute advanced. -/
theorem renderIdempotentCounterexample :
    (getOutput (getOutput (initState "" 0) 0 "Browser Console Log Capture").2
        60000 "Browser Console Log Capture").1 ≠
      getOutputWithElapsed (initState "" 0) 0 "Browser Console Log Capture"
        (toFixed1 (60000 - (initState "" 0).startTime)) := by
  decide

/-- C9 (amended): calling the renderer twice with the same title and no
intervening events leaves the summary tallies and message count unchanged,
and the two outputs are byte-identical whenever both render-time fields —
the header's elapsed-seconds field and the completion footer — coincide;
only those two fields can differ. -/
theorem renderIdempotentAmended (s : CaptureState) (t1 t2 : Nat) (title : String)
    (hs : List.Pairwise timeLE s.messages) :
    ((getOutput (getOutput s t1 title).2 t2 title).2.errors = s.errors ∧
     (getOutput (getOutput s t1 title).2 t2 title).2.warnings = s.warnings ∧
     (getOutput (getOutput s t1 title).2 t2 title).2.messages.length =
       s.messages.length) ∧
    (toFixed1 (t1 - s.startTime) = toFixed1 (t2 - s.startTime) →
      footerStr t1 = footerStr t2 →
      (getOutput (getOutput s t1 title).2 t2 title).1 = (getOutput s t1 title).1) := by
  have h1 : (getOutput s t1 title).2 = s := getOutput_state_of_sorted s t1 title hs
  rw [h1]
  have h2 : (getOutput s t2 title).2 = s := getOutput_state_of_sorted s t2 title hs
  refine ⟨⟨?_, ?_, ?_⟩, ?_⟩
  · rw [h2]
  · rw [h2]
  · rw [h2]
  · intro he hf
    simp only [getOutput, getOutputWithElapsed]
    rw [← he, ← hf]

/-- C9 (witness): with the same render instant the two outputs coincide
exactly. -/
theorem renderIdempotentAmendedWitness :
    (getOutput (getOutput (initState "" 0) 0 "T").2 0 "T").1 =
      (getOutput (initState "" 0) 0 "T").1 :=
  (renderIdempotentAmended (initState "" 0) 0 0 "T" List.Pairwise.nil).2 rfl rfl

/-- C10: a response event with status below 400 leaves the aggregator state
entirely unchanged — no record, no tally change, no dedup-set entry — and
consequently a sub-400 response for a URL never suppresses a later `>= 400`
record for that same URL. -/
theorem sub400ResponseNoop (s : CaptureState) (now : Nat) (e : ResponseEvent)
    (h : e.status < 400) :
    onResponse s now e = s ∧
      ∀ (now' : Nat) (e' : ResponseEvent), 400 ≤ e'.status →
        e'.url ∉ s.reportedErrors →
        (onResponse (onResponse s now e) now' e').messages.length =
          s.messages.length + 1 := by
  have h0 : onResponse s now e = s := by
    simp [onResponse, Nat.not_le.mpr h]
  refine ⟨h0, ?_⟩
  intro now' e' h1 h2
  rw [h0]
  simp [onResponse, h1, h2, logMessage]

/-- C10 (witness): a 200 response is a complete no-op, and a 404 for the
same URL afterwards still appends its record. -/
theorem sub400ResponseNoopWitness :
    onResponse (initState "" 0) 7 ⟨"/a.js", 200, "OK"⟩ = initState "" 0 ∧
      (onResponse (onResponse (initState "" 0) 7 ⟨"/a.js", 200, "OK"⟩) 9
          ⟨"/a.js", 404, "Not Found"⟩).messages.length =
        (initState "" 0).messages.length + 1 :=
  ⟨(sub400ResponseNoop (initState "" 0) 7 ⟨"/a.js", 200, "OK"⟩ (by decide)).1,
   (sub400ResponseNoop (initState "" 0) 7 ⟨"/a.js", 200, "OK"⟩ (by decide)).2
     9 ⟨"/a.js", 404, "Not Found"⟩ (by decide) (by decide)⟩
